import Mathlib

/-!
Verification of the eShop chat relay and controller behaviours.

The definitions below are a shallow embedding of the repository's code:

* the Socket.IO chat relay state and handlers 1:1 from socket/index.js
  (roster of connected users, message creation, the sendMessage and
  messageSeen handlers and the per-connection message store);
* the Express controllers (orders, products/reviews, coupons, withdrawals)
  whose source files are not part of the snapshot: those are modelled from
  the specification and the behaviour pinned down by the Jest suites, and
  each such definition carries a doc comment saying so.

JavaScript strings become String, JS numbers become Int or Rat (the
arithmetic the claims mention is exact there), possibly-undefined values
become Option, and each event handler becomes a pure function from the
relay state to the new state plus the emitted events.
-/

/-- One entry of the in-memory roster kept by socket/index.js:
a pair of a user id and the socket id it registered with. -/
structure RosterEntry where
  userId : String
  socketId : String
deriving DecidableEq, Repr

/-- addUser from socket/index.js: push the pair unless some entry already
carries this userId (the JS guard is !users.some(u => u.userId === userId)). -/
def addUser (userId socketId : String) (users : List RosterEntry) : List RosterEntry :=
  if users.any (fun u => u.userId == userId) then users
  else users ++ [{ userId := userId, socketId := socketId }]

/-- removeUser from socket/index.js: drop every entry with this socketId. -/
def removeUser (socketId : String) (users : List RosterEntry) : List RosterEntry :=
  users.filter (fun u => u.socketId != socketId)

/-- getUser from socket/index.js: linear scan for the first entry whose
userId equals the receiver id. -/
def getUser (receiverId : String) (users : List RosterEntry) : Option RosterEntry :=
  users.find? (fun u => u.userId == receiverId)

/-- The userId column of the roster. -/
def rosterUserIds (users : List RosterEntry) : List String :=
  users.map (fun u => u.userId)

/-- The two roster mutations the connection handler performs: addUser on an
addUser event, removeUser on disconnect. -/
inductive RosterOp where
  | add (userId socketId : String)
  | remove (socketId : String)
deriving DecidableEq, Repr

/-- Apply one roster operation. -/
def applyOp (op : RosterOp) (users : List RosterEntry) : List RosterEntry :=
  match op with
  | .add u s => addUser u s users
  | .remove s => removeUser s users

/-- Apply a whole sequence of roster operations, oldest first. -/
def applyOps (ops : List RosterOp) (users : List RosterEntry) : List RosterEntry :=
  ops.foldl (fun us op => applyOp op us) users

lemma addUser_userIds_nodup (userId socketId : String) (users : List RosterEntry)
    (h : (rosterUserIds users).Nodup) :
    (rosterUserIds (addUser userId socketId users)).Nodup := by
  unfold addUser
  by_cases hc : users.any (fun u => u.userId == userId) = true
  · simpa [hc] using h
  · rw [if_neg hc]
    simp only [rosterUserIds, List.map_append, List.map_cons, List.map_nil]
    rw [List.nodup_append]
    refine ⟨h, List.nodup_singleton _, ?_⟩
    intro a ha hb
    simp only [List.mem_singleton] at hb
    subst hb
    simp only [rosterUserIds, List.mem_map] at ha
    obtain ⟨u, hu, hu2⟩ := ha
    rw [List.any_eq_true] at hc
    exact hc ⟨u, hu, by simp [hu2]⟩

lemma removeUser_userIds_sublist (socketId : String) (users : List RosterEntry) :
    (rosterUserIds (removeUser socketId users)).Sublist (rosterUserIds users) :=
  List.Sublist.map _ (List.filter_sublist users)

lemma removeUser_userIds_nodup (socketId : String) (users : List RosterEntry)
    (h : (rosterUserIds users).Nodup) :
    (rosterUserIds (removeUser socketId users)).Nodup :=
  (removeUser_userIds_sublist socketId users).nodup h

lemma applyOps_userIds_nodup (ops : List RosterOp) (users : List RosterEntry)
    (h : (rosterUserIds users).Nodup) :
    (rosterUserIds (applyOps ops users)).Nodup := by
  induction ops generalizing users with
  | nil => simpa [applyOps] using h
  | cons op rest ih =>
    have hstep : (rosterUserIds (applyOp op users)).Nodup := by
      cases op with
      | add u s => exact addUser_userIds_nodup u s users h
      | remove s => exact removeUser_userIds_nodup s users h
    simpa [applyOps, List.foldl_cons] using ih (applyOp op users) hstep

lemma getUser_of_mem (users : List RosterEntry) (h : (rosterUserIds users).Nodup)
    (e : RosterEntry) (he : e ∈ users) : getUser e.userId users = some e := by
  induction users with
  | nil => cases he
  | cons u rest ih =>
    simp only [rosterUserIds, List.map_cons, List.nodup_cons] at h
    rcases List.mem_cons.mp he with rfl | hmem
    · simp [getUser, List.find?]
    · have hne : u.userId ≠ e.userId := by
        intro heq
        exact h.1 (heq ▸ List.mem_map.mpr ⟨e, hmem, rfl⟩)
      have : (u.userId == e.userId) = false := by
        simpa [beq_iff_eq] using hne
      simp only [getUser, List.find?, this]
      exact ih h.2 hmem

/-- A chat message as built by createMessage in socket/index.js. The JS
object literal has no id field, which we record as an id component that
createMessage always leaves at none (undefined). -/
structure Message where
  id : Option String
  senderId : String
  receiverId : String
  text : String
  images : Option String
  seen : Bool
  createdAt : Nat
deriving DecidableEq, Repr

/-- createMessage from socket/index.js: text defaults to the empty string
(text or two quotes in JS), images stays as given (or null), seen starts
false, createdAt is the current clock; no id field is ever set. -/
def createMessage (senderId receiverId : String) (text images : Option String)
    (now : Nat) : Message :=
  { id := none, senderId := senderId, receiverId := receiverId,
    text := text.getD "", images := images, seen := false, createdAt := now }

/-- The per-connection messages object of socket/index.js: an association
list from receiver id to the list of messages pushed for that receiver. -/
abbrev MsgStore := List (String × List Message)

/-- Reading messages[k]: the value at the first matching key, none when the
key is absent. -/
def storeLookup (store : MsgStore) (k : String) : Option (List Message) :=
  (store.find? (fun p => p.1 == k)).map (fun p => p.2)

/-- The store update in the sendMessage handler: start a fresh singleton
list when the key is absent, otherwise push onto the existing list. -/
def pushMessage (store : MsgStore) (k : String) (m : Message) : MsgStore :=
  if store.any (fun p => p.1 == k) then
    store.map (fun p => if p.1 == k then (p.1, p.2 ++ [m]) else p)
  else store ++ [(k, [m])]

/-- JS truthiness test for a possibly-undefined string id: undefined and
the empty string are falsy. -/
def jsFalsyStr : Option String → Bool
  | none => true
  | some s => s == ""

/-- Outcome of one sendMessage event: the new messages store and the
getMessage emission (target socket id and message), if any. -/
structure SendMessageResult where
  store : MsgStore
  emitted : Option (String × Message)
deriving DecidableEq, Repr

/-- The sendMessage handler of socket/index.js: bail out when senderId or
receiverId is falsy; otherwise build the message, push it into the store
keyed by receiverId unconditionally, and emit getMessage to the receiver
socket only when the roster lookup finds one with a truthy socketId. -/
def sendMessage (users : List RosterEntry) (store : MsgStore)
    (senderId receiverId text images : Option String) (now : Nat) :
    SendMessageResult :=
  if jsFalsyStr senderId || jsFalsyStr receiverId then
    { store := store, emitted := none }
  else
    let m := createMessage (senderId.getD "") (receiverId.getD "") text images now
    let store2 := pushMessage store (receiverId.getD "") m
    match getUser (receiverId.getD "") users with
    | none => { store := store2, emitted := none }
    | some u =>
      if u.socketId == "" then { store := store2, emitted := none }
      else { store := store2, emitted := some (u.socketId, m) }

/-- Outcome of one messageSeen event: the new store and the messageSeen
emission (target socket id, senderId, receiverId, messageId), if any. -/
structure MessageSeenResult where
  store : MsgStore
  emitted : Option (String × String × String × Option String)
deriving DecidableEq, Repr

/-- Mutating message.seen on the first stored message matching the
receiverId/messageId pair, as the JS object mutation does. -/
def markFirstSeen (msgs : List Message) (receiverId : String)
    (messageId : Option String) : List Message :=
  match msgs with
  | [] => []
  | m :: rest =>
    if m.receiverId == receiverId && m.id == messageId then
      { m with seen := true } :: rest
    else m :: markFirstSeen rest receiverId messageId

/-- The messageSeen handler of socket/index.js: look up messages[senderId],
find the first message whose receiverId and id match the event, set its
seen flag, and emit messageSeen back to the sender socket when the sender
is in the roster with a truthy socketId; otherwise change nothing. -/
def messageSeen (users : List RosterEntry) (store : MsgStore)
    (senderId receiverId : String) (messageId : Option String) :
    MessageSeenResult :=
  match storeLookup store senderId with
  | none => { store := store, emitted := none }
  | some msgs =>
    match msgs.find? (fun m => m.receiverId == receiverId && m.id == messageId) with
    | none => { store := store, emitted := none }
    | some _ =>
      let store2 := store.map (fun p =>
        if p.1 == senderId then (p.1, markFirstSeen p.2 receiverId messageId) else p)
      match getUser senderId users with
      | none => { store := store2, emitted := none }
      | some u =>
        if u.socketId == "" then { store := store2, emitted := none }
        else
          { store := store2,
            emitted := some (u.socketId, senderId, receiverId, messageId) }

lemma storeLookup_map_push (k : String) (m : Message) :
    ∀ store : MsgStore, store.any (fun p => p.1 == k) = true →
      storeLookup
        (store.map (fun p => if p.1 == k then (p.1, p.2 ++ [m]) else p)) k =
        some ((storeLookup store k).getD [] ++ [m]) := by
  intro store
  induction store with
  | nil => intro hc; simp at hc
  | cons p rest ih =>
    intro hc
    by_cases hp : (p.1 == k) = true
    · simp only [List.map_cons]
      rw [if_pos hp]
      unfold storeLookup
      rw [List.find?_cons, List.find?_cons]
      simp only [hp]
      simp
    · have hrest : rest.any (fun q => q.1 == k) = true := by
        rcases List.any_eq_true.mp hc with ⟨q, hq, hqk⟩
        rcases List.mem_cons.mp hq with rfl | hq2
        · exact absurd hqk hp
        · exact List.any_eq_true.mpr ⟨q, hq2, hqk⟩
      have hrec := ih hrest
      have hpf : (p.1 == k) = false := by
        simpa using hp
      simp only [List.map_cons]
      rw [if_neg hp]
      unfold storeLookup at hrec ⊢
      rw [List.find?_cons, List.find?_cons]
      simp only [hpf]
      exact hrec

lemma storeLookup_pushMessage (store : MsgStore) (k : String) (m : Message) :
    storeLookup (pushMessage store k m) k =
      some ((storeLookup store k).getD [] ++ [m]) := by
  unfold pushMessage
  by_cases hc : store.any (fun p => p.1 == k) = true
  · rw [if_pos hc]
    exact storeLookup_map_push k m store hc
  · rw [if_neg hc]
    have hnone : store.find? (fun p => p.1 == k) = none := by
      rw [List.find?_eq_none]
      intro p hp hpk
      exact hc (List.any_eq_true.mpr ⟨p, hp, hpk⟩)
    simp [storeLookup, List.find?_append, hnone]

/-- C2: addUser appends the pair when the userId is absent from the roster,
and leaves the roster completely unchanged (first registration wins, no
socketId update) when some entry already carries that userId. -/
theorem addUser_first_registration_wins (userId socketId : String)
    (users : List RosterEntry) :
    ((∀ u ∈ users, u.userId ≠ userId) →
      addUser userId socketId users =
        users ++ [{ userId := userId, socketId := socketId }]) ∧
    ((∃ u ∈ users, u.userId = userId) → addUser userId socketId users = users) := by
  constructor
  · intro h
    have hc : users.any (fun u => u.userId == userId) = false := by
      rw [List.any_eq_false]
      intro u hu
      simpa [beq_iff_eq] using h u hu
    simp [addUser, hc]
  · rintro ⟨u, hu, rfl⟩
    have hc : users.any (fun x => x.userId == u.userId) = true :=
      List.any_eq_true.mpr ⟨u, hu, by simp⟩
    simp [addUser, hc]

/-- Witness for C2: on the roster [(u1, s1)], adding the fresh user u2
appends, while re-adding u1 with a new socket s9 changes nothing. -/
theorem addUser_first_registration_wins_witness :
    addUser "u2" "s2" [{ userId := "u1", socketId := "s1" }] =
      [{ userId := "u1", socketId := "s1" }, { userId := "u2", socketId := "s2" }] ∧
    addUser "u1" "s9" [{ userId := "u1", socketId := "s1" }] =
      [{ userId := "u1", socketId := "s1" }] := by
  constructor
  · exact (addUser_first_registration_wins "u2" "s2" _).1 (by decide)
  · exact (addUser_first_registration_wins "u1" "s9" _).2 ⟨_, List.mem_singleton_self _, rfl⟩

/-- C9: starting from the empty roster, every sequence of addUser and
removeUser operations keeps the userIds pairwise distinct, so getUser
resolves each present entry to exactly that entry. -/
theorem roster_userIds_unique (ops : List RosterOp) :
    (rosterUserIds (applyOps ops [])).Nodup ∧
    ∀ e ∈ applyOps ops [], getUser e.userId (applyOps ops []) = some e := by
  have h := applyOps_userIds_nodup ops [] (by simp [rosterUserIds])
  exact ⟨h, fun e he => getUser_of_mem _ h e he⟩

/-- Witness for C9: a concrete history with a duplicate add and a
disconnect still yields a duplicate-free roster where lookup of b finds
its unique entry. -/
theorem roster_userIds_unique_witness :
    (rosterUserIds (applyOps
      [.add "a" "s1", .add "b" "s2", .add "a" "s3", .remove "s1"] [])).Nodup ∧
    getUser "b" (applyOps
      [.add "a" "s1", .add "b" "s2", .add "a" "s3", .remove "s1"] []) =
      some { userId := "b", socketId := "s2" } := by
  refine ⟨(roster_userIds_unique _).1, ?_⟩
  exact (roster_userIds_unique _).2 { userId := "b", socketId := "s2" } (by decide)

/-- C1 counterexample: with an empty roster the receiver bob is offline,
and the sendMessage handler indeed emits nothing, yet it still appends the
message to the messages store under the key bob, so the event is not
dropped without queueing. -/
theorem sendMessage_offline_counterexample :
    getUser "bob" [] = none ∧
    (sendMessage [] [] (some "alice") (some "bob") (some "hi") none 0).emitted
      = none ∧
    (sendMessage [] [] (some "alice") (some "bob") (some "hi") none 0).store =
      [("bob", [createMessage "alice" "bob" (some "hi") none 0])] := by
  decide

/-- C1 amended: for every sendMessage event that passes the falsy-id guard
and whose receiverId is not in the roster, no getMessage emission happens,
but the message is still appended to the messages store under the
receiverId key (stored in memory, though no later-delivery mechanism ever
reads it). -/
theorem sendMessage_offline_amended (users : List RosterEntry)
    (store : MsgStore) (senderId receiverId text images : Option String)
    (now : Nat)
    (hs : jsFalsyStr senderId = false) (hr : jsFalsyStr receiverId = false)
    (hoff : getUser (receiverId.getD "") users = none) :
    (sendMessage users store senderId receiverId text images now).emitted
      = none ∧
    storeLookup
        (sendMessage users store senderId receiverId text images now).store
        (receiverId.getD "") =
      some ((storeLookup store (receiverId.getD "")).getD [] ++
        [createMessage (senderId.getD "") (receiverId.getD "") text images now]) := by
  unfold sendMessage
  rw [hs, hr]
  simp only [Bool.or_self, Bool.false_eq_true, if_false, hoff]
  exact ⟨trivial, storeLookup_pushMessage store (receiverId.getD "") _⟩

/-- Witness for C1 amended: carol is online but bob is not; sending from
alice to bob emits nothing and queues the message under bob. -/
theorem sendMessage_offline_amended_witness :
    (sendMessage [{ userId := "carol", socketId := "s9" }] []
        (some "alice") (some "bob") (some "hi") none 7).emitted = none ∧
    storeLookup
        (sendMessage [{ userId := "carol", socketId := "s9" }] []
          (some "alice") (some "bob") (some "hi") none 7).store
        ((some "bob").getD "") =
      some ((storeLookup [] ((some "bob").getD "")).getD [] ++
        [createMessage ((some "alice").getD "") ((some "bob").getD "")
          (some "hi") none 7]) :=
  sendMessage_offline_amended
    [{ userId := "carol", socketId := "s9" }] []
    (some "alice") (some "bob") (some "hi") none 7
    (by decide) (by decide) (by decide)

/-- C10: createMessage never sets an id, and a messageSeen event carrying a
defined (non-undefined) messageId matches no stored message, so the store
is unchanged and nothing is emitted back to the sender. -/
theorem messageSeen_defined_id_noop (users : List RosterEntry)
    (store : MsgStore) (senderId receiverId x : String)
    (hid : ∀ p ∈ store, ∀ m ∈ p.2, m.id = none) :
    (∀ s r t i n, (createMessage s r t i n).id = none) ∧
    messageSeen users store senderId receiverId (some x) =
      { store := store, emitted := none } := by
  refine ⟨fun s r t i n => rfl, ?_⟩
  unfold messageSeen
  cases hfind : storeLookup store senderId with
  | none => rfl
  | some msgs =>
    have hmsgs : ∀ m ∈ msgs, m.id = none := by
      unfold storeLookup at hfind
      cases hp : store.find? (fun p => p.1 == senderId) with
      | none => rw [hp] at hfind; simp at hfind
      | some p =>
        have hpmem := List.mem_of_find?_eq_some hp
        rw [hp] at hfind
        have h2 : p.2 = msgs := by simpa using hfind
        exact h2 ▸ hid p hpmem
    have hnone :
        msgs.find?
          (fun m => m.receiverId == receiverId && m.id == some x) = none := by
      rw [List.find?_eq_none]
      intro m hm
      simp [hmsgs m hm]
    simp [hnone]

/-- Witness for C10: after alice sends bob a message (which is stored with
no id), a messageSeen event with the defined messageId mid1 changes
nothing and emits nothing. -/
theorem messageSeen_defined_id_noop_witness :
    messageSeen [{ userId := "bob", socketId := "s2" }]
        (sendMessage [] [] (some "alice") (some "bob") (some "hi") none 5).store
        "bob" "bob" (some "mid1") =
      { store :=
          (sendMessage [] [] (some "alice") (some "bob") (some "hi") none 5).store,
        emitted := none } :=
  (messageSeen_defined_id_noop [{ userId := "bob", socketId := "s2" }]
    (sendMessage [] [] (some "alice") (some "bob") (some "hi") none 5).store
    "bob" "bob" "mid1" (by decide)).2

/-- A cart line item as the order controller sees it: the product id, the
shop the item belongs to, the ordered quantity and the line price. -/
structure CartItem where
  pid : String
  shopId : String
  qty : Int
  price : Rat
deriving DecidableEq, Repr

/-- An order document: the per-shop cart slice plus the fields the status
workflow touches. -/
structure OrderDoc where
  cart : List CartItem
  totalPrice : Rat
  status : String
  paymentStatus : String
  deliveredAt : Option Nat
deriving DecidableEq, Repr

/-- A product document restricted to the stock bookkeeping fields. -/
structure ProductDoc where
  pid : String
  stock : Int
  sold_out : Int
deriving DecidableEq, Repr

/-- A shop document restricted to the seller balance. -/
structure ShopDoc where
  availableBalance : Rat
deriving DecidableEq, Repr

/-- Modelled from the spec: the per-product mutation of the order
controller's updateOrder helper (controller/order.js is not in the
snapshot) on transfer to the delivery partner, as pinned by the Jest
suite: stock decreases by the ordered qty, sold_out increases by it. -/
def sellOne (item : CartItem) (p : ProductDoc) : ProductDoc :=
  if p.pid == item.pid then
    { p with stock := p.stock - item.qty, sold_out := p.sold_out + item.qty }
  else p

/-- Applying sellOne for one cart item across the product collection. -/
def sellOut (products : List ProductDoc) (item : CartItem) : List ProductDoc :=
  products.map (sellOne item)

/-- Modelled from the spec: the per-product mutation of the refund-success
handler (controller/order.js is not in the snapshot), as pinned by the Jest
suite: stock increases by the ordered qty, sold_out decreases by it. -/
def restockOne (item : CartItem) (p : ProductDoc) : ProductDoc :=
  if p.pid == item.pid then
    { p with stock := p.stock + item.qty, sold_out := p.sold_out - item.qty }
  else p

/-- Applying restockOne for one cart item across the product collection. -/
def restock (products : List ProductDoc) (item : CartItem) : List ProductDoc :=
  products.map (restockOne item)

/-- Modelled from the spec: the update-order-status handler of
controller/order.js (not in the snapshot), following the spec's "stock
decrement/restore on delivery/refund" and "additivity of seller balance on
delivery" and the Jest suite: on Transferred to delivery partner every
cart item's product loses stock and gains sold_out by qty; on Delivered
the order gets deliveredAt and paymentInfo.status Succeeded and the shop
balance grows by totalPrice minus the 10 percent service charge. -/
def updateOrderStatus (order : OrderDoc) (shop : ShopDoc)
    (products : List ProductDoc) (newStatus : String) (now : Nat) :
    OrderDoc × ShopDoc × List ProductDoc :=
  let products2 :=
    if newStatus = "Transferred to delivery partner" then
      order.cart.foldl sellOut products
    else products
  if newStatus = "Delivered" then
    ({ order with
        status := newStatus,
        deliveredAt := some now,
        paymentStatus := "Succeeded" },
      { shop with availableBalance :=
          shop.availableBalance +
            (order.totalPrice - order.totalPrice * (1 / 10 : Rat)) },
      products2)
  else ({ order with status := newStatus }, shop, products2)

/-- Modelled from the spec: the order-refund-success handler of
controller/order.js (not in the snapshot), as pinned by the Jest suite:
the order status becomes the requested one, and when that status is
Refund Success every cart item's product regains stock and loses sold_out
by qty. -/
def orderRefundSuccess (order : OrderDoc) (products : List ProductDoc)
    (newStatus : String) : OrderDoc × List ProductDoc :=
  ({ order with status := newStatus },
    if newStatus = "Refund Success" then order.cart.foldl restock products
    else products)

/-- Total quantity a cart orders of the product with the given id. -/
def cartQty (cart : List CartItem) (pid : String) : Int :=
  (cart.map (fun i => if pid == i.pid then i.qty else 0)).sum

lemma foldl_map_fuse (g : CartItem → ProductDoc → ProductDoc)
    (cart : List CartItem) :
    ∀ products : List ProductDoc,
      cart.foldl (fun ps i => ps.map (g i)) products =
        products.map (fun p => cart.foldl (fun q i => g i q) p) := by
  induction cart with
  | nil => intro products; simp
  | cons i rest ih =>
    intro products
    rw [List.foldl_cons, ih (products.map (g i)), List.map_map]
    rfl

lemma foldl_sellOne (cart : List CartItem) :
    ∀ p : ProductDoc,
      cart.foldl (fun q i => sellOne i q) p =
        { p with stock := p.stock - cartQty cart p.pid,
                 sold_out := p.sold_out + cartQty cart p.pid } := by
  induction cart with
  | nil => intro p; simp [cartQty]
  | cons i rest ih =>
    intro p
    rw [List.foldl_cons]
    by_cases h : (p.pid == i.pid) = true
    · have hs : sellOne i p =
          { p with stock := p.stock - i.qty, sold_out := p.sold_out + i.qty } := by
        unfold sellOne
        rw [if_pos h]
      rw [hs, ih]
      have hp : p.pid = i.pid := by simpa using h
      have hq : cartQty (i :: rest) p.pid = i.qty + cartQty rest p.pid := by
        simp [cartQty, hp]
      simp only [hq, ProductDoc.mk.injEq, true_and]
      constructor <;> ring
    · have hf : (p.pid == i.pid) = false := by
        simpa using h
      have hs : sellOne i p = p := by
        unfold sellOne
        rw [if_neg h]
      rw [hs, ih]
      have hp : ¬p.pid = i.pid := by simpa using h
      have hq : cartQty (i :: rest) p.pid = cartQty rest p.pid := by
        simp [cartQty, hp]
      rw [hq]

lemma foldl_restockOne (cart : List CartItem) :
    ∀ p : ProductDoc,
      cart.foldl (fun q i => restockOne i q) p =
        { p with stock := p.stock + cartQty cart p.pid,
                 sold_out := p.sold_out - cartQty cart p.pid } := by
  induction cart with
  | nil => intro p; simp [cartQty]
  | cons i rest ih =>
    intro p
    rw [List.foldl_cons]
    by_cases h : (p.pid == i.pid) = true
    · have hs : restockOne i p =
          { p with stock := p.stock + i.qty, sold_out := p.sold_out - i.qty } := by
        unfold restockOne
        rw [if_pos h]
      rw [hs, ih]
      have hp : p.pid = i.pid := by simpa using h
      have hq : cartQty (i :: rest) p.pid = i.qty + cartQty rest p.pid := by
        simp [cartQty, hp]
      simp only [hq, ProductDoc.mk.injEq, true_and]
      constructor <;> ring
    · have hs : restockOne i p = p := by
        unfold restockOne
        rw [if_neg h]
      rw [hs, ih]
      have hp : ¬p.pid = i.pid := by simpa using h
      have hq : cartQty (i :: rest) p.pid = cartQty rest p.pid := by
        simp [cartQty, hp]
      rw [hq]

lemma foldl_sellOut (cart : List CartItem) :
    ∀ products : List ProductDoc,
      cart.foldl sellOut products =
        products.map (fun p => cart.foldl (fun q i => sellOne i q) p) :=
  foldl_map_fuse sellOne cart

lemma foldl_restock (cart : List CartItem) :
    ∀ products : List ProductDoc,
      cart.foldl restock products =
        products.map (fun p => cart.foldl (fun q i => restockOne i q) p) :=
  foldl_map_fuse restockOne cart

lemma sell_closed (cart : List CartItem) (products : List ProductDoc) :
    cart.foldl sellOut products =
      products.map (fun p =>
        { p with stock := p.stock - cartQty cart p.pid,
                 sold_out := p.sold_out + cartQty cart p.pid }) := by
  rw [foldl_sellOut]
  exact congrArg (fun f => products.map f) (funext fun p => foldl_sellOne cart p)

lemma restock_closed (cart : List CartItem) (products : List ProductDoc) :
    cart.foldl restock products =
      products.map (fun p =>
        { p with stock := p.stock + cartQty cart p.pid,
                 sold_out := p.sold_out - cartQty cart p.pid }) := by
  rw [foldl_restock]
  exact congrArg (fun f => products.map f) (funext fun p => foldl_restockOne cart p)

lemma restock_after_sell (cart : List CartItem) (products : List ProductDoc) :
    cart.foldl restock (cart.foldl sellOut products) = products := by
  rw [sell_closed, restock_closed, List.map_map]
  have hcomp : ((fun p : ProductDoc =>
      { p with stock := p.stock + cartQty cart p.pid,
               sold_out := p.sold_out - cartQty cart p.pid }) ∘
      (fun p : ProductDoc =>
      { p with stock := p.stock - cartQty cart p.pid,
               sold_out := p.sold_out + cartQty cart p.pid })) =
      fun p : ProductDoc => p := by
    funext p
    have h1 : p.stock - cartQty cart p.pid + cartQty cart p.pid = p.stock := by
      ring
    have h2 : p.sold_out + cartQty cart p.pid - cartQty cart p.pid = p.sold_out := by
      ring
    show ProductDoc.mk p.pid (p.stock - cartQty cart p.pid + cartQty cart p.pid)
        (p.sold_out + cartQty cart p.pid - cartQty cart p.pid) = p
    rw [h1, h2]
  rw [hcomp]
  exact List.map_id products

/-- C4: setting an order's status to Delivered adds exactly totalPrice
minus the 10 percent service charge (nine tenths of totalPrice) on top of
the shop's prior available balance, sets paymentInfo.status to Succeeded,
stamps deliveredAt with the current time, and records the new status. -/
theorem delivered_updates_payment_and_balance (order : OrderDoc)
    (shop : ShopDoc) (products : List ProductDoc) (now : Nat) :
    (updateOrderStatus order shop products "Delivered" now).2.1.availableBalance =
      shop.availableBalance + (9 / 10 : Rat) * order.totalPrice ∧
    (updateOrderStatus order shop products "Delivered" now).1.paymentStatus =
      "Succeeded" ∧
    (updateOrderStatus order shop products "Delivered" now).1.deliveredAt =
      some now ∧
    (updateOrderStatus order shop products "Delivered" now).1.status =
      "Delivered" := by
  have hne : ¬("Delivered" = "Transferred to delivery partner") := by decide
  simp only [updateOrderStatus, if_neg hne, if_pos rfl, if_true]
  refine ⟨by ring, ?_, ?_, ?_⟩ <;> trivial

/-- C6: transferring an order to the delivery partner decreases every cart
item's product stock by its qty and increases its sold_out by the same
amount, and a following Refund Success on that order adds the amounts
back, returning the whole product collection to its pre-order state. -/
theorem delivery_refund_stock_inverse (order : OrderDoc) (shop : ShopDoc)
    (products : List ProductDoc) (now : Nat) :
    (updateOrderStatus order shop products
        "Transferred to delivery partner" now).2.2 =
      products.map (fun p =>
        { p with stock := p.stock - cartQty order.cart p.pid,
                 sold_out := p.sold_out + cartQty order.cart p.pid }) ∧
    (orderRefundSuccess
        (updateOrderStatus order shop products
          "Transferred to delivery partner" now).1
        (updateOrderStatus order shop products
          "Transferred to delivery partner" now).2.2
        "Refund Success").2 = products := by
  have hne : ¬("Transferred to delivery partner" = "Delivered") := by decide
  have h22 : (updateOrderStatus order shop products
      "Transferred to delivery partner" now).2.2 =
      order.cart.foldl sellOut products := by
    simp only [updateOrderStatus, if_pos rfl, if_neg hne, if_true]
  have h1cart : (updateOrderStatus order shop products
      "Transferred to delivery partner" now).1.cart = order.cart := by
    simp only [updateOrderStatus, if_pos rfl, if_neg hne, if_true]
  refine ⟨by rw [h22]; exact sell_closed order.cart products, ?_⟩
  show (if ("Refund Success" : String) = "Refund Success" then
      (updateOrderStatus order shop products
        "Transferred to delivery partner" now).1.cart.foldl restock
        (updateOrderStatus order shop products
          "Transferred to delivery partner" now).2.2
    else (updateOrderStatus order shop products
        "Transferred to delivery partner" now).2.2) = products
  rw [if_pos rfl, h1cart, h22]
  exact restock_after_sell order.cart products

/-- Modelled from the spec: the cart-grouping step of the create-order
handler (controller/order.js is not in the snapshot). Per the spec's
"order splitting by shop" and the Jest suite, each cart item is filed
into a shopId-keyed map in cart order, appending to an existing group or
opening a fresh one. -/
def groupStep (acc : List (String × List CartItem)) (item : CartItem) :
    List (String × List CartItem) :=
  if acc.any (fun p => p.1 == item.shopId) then
    acc.map (fun p => if p.1 == item.shopId then (p.1, p.2 ++ [item]) else p)
  else acc ++ [(item.shopId, [item])]

/-- The shopItemsMap of the create-order handler: fold the cart through
groupStep starting from the empty map. -/
def groupCartByShop (cart : List CartItem) : List (String × List CartItem) :=
  cart.foldl groupStep []

/-- Modelled from the spec: the create-order handler builds one order per
group of the shopItemsMap, carrying exactly that group as its cart. -/
def createOrder (cart : List CartItem) (totalPrice : Rat) : List OrderDoc :=
  (groupCartByShop cart).map (fun p =>
    { cart := p.2, totalPrice := totalPrice, status := "Processing",
      paymentStatus := "Processing", deliveredAt := none })

/-- Loop invariant of the cart grouping: group keys are pairwise distinct,
they are exactly the shopIds of the processed items, and each group holds
exactly the processed items of its shop, in cart order. -/
def GroupInv (acc : List (String × List CartItem))
    (processed : List CartItem) : Prop :=
  (acc.map Prod.fst).Nodup ∧
  (∀ s : String,
    s ∈ acc.map Prod.fst ↔ s ∈ processed.map (fun i => i.shopId)) ∧
  (∀ p ∈ acc, p.2 = processed.filter (fun i => i.shopId == p.1))

lemma groupStep_inv (acc : List (String × List CartItem))
    (processed : List CartItem) (item : CartItem)
    (h : GroupInv acc processed) :
    GroupInv (groupStep acc item) (processed ++ [item]) := by
  obtain ⟨hnd, hmem, hcont⟩ := h
  unfold groupStep
  by_cases hc : acc.any (fun p => p.1 == item.shopId) = true
  · rw [if_pos hc]
    have hitem : item.shopId ∈ acc.map Prod.fst := by
      rcases List.any_eq_true.mp hc with ⟨p, hp, hpk⟩
      have hp1 : p.1 = item.shopId := by simpa using hpk
      exact List.mem_map.mpr ⟨p, hp, hp1⟩
    have hfst : (acc.map (fun p =>
        if p.1 == item.shopId then (p.1, p.2 ++ [item]) else p)).map Prod.fst =
        acc.map Prod.fst := by
      rw [List.map_map]
      apply List.map_congr_left
      intro p hp
      by_cases hpk : (p.1 == item.shopId) = true
      · have hp1 : p.1 = item.shopId := by simpa using hpk
        simp [hp1]
      · have hne : ¬p.1 = item.shopId := by simpa using hpk
        simp [hne]
    refine ⟨hfst ▸ hnd, ?_, ?_⟩
    · intro s
      rw [hfst, hmem s, List.map_append, List.mem_append]
      constructor
      · exact fun hs => Or.inl hs
      · rintro (hs | hs)
        · exact hs
        · simp only [List.map_cons, List.map_nil, List.mem_singleton] at hs
          subst hs
          exact (hmem item.shopId).mp hitem
    · intro q hq
      obtain ⟨p, hp, hpq⟩ := List.mem_map.mp hq
      by_cases hpk : (p.1 == item.shopId) = true
      · have hp1 : p.1 = item.shopId := by simpa using hpk
        rw [if_pos hpk] at hpq
        subst hpq
        have hpreditem : (item.shopId == p.1) = true := by simp [hp1]
        rw [List.filter_append]
        simp only [List.filter, hpreditem]
        rw [← hcont p hp]
      · rw [if_neg hpk] at hpq
        subst hpq
        have hpreditem : (item.shopId == p.1) = false := by
          have hne : ¬p.1 = item.shopId := by simpa using hpk
          simp
          exact fun he => hne he.symm
        rw [List.filter_append]
        simp only [List.filter, hpreditem]
        rw [← hcont p hp, List.append_nil]
  · rw [if_neg hc]
    have hnew : item.shopId ∉ acc.map Prod.fst := by
      intro hin
      obtain ⟨p, hp, hp1⟩ := List.mem_map.mp hin
      exact hc (List.any_eq_true.mpr ⟨p, hp, by simp [hp1]⟩)
    have hnewproc : item.shopId ∉ processed.map (fun i => i.shopId) :=
      fun hin => hnew ((hmem item.shopId).mpr hin)
    refine ⟨?_, ?_, ?_⟩
    · rw [List.map_append]
      rw [List.nodup_append]
      refine ⟨hnd, by simp, ?_⟩
      intro a ha hb
      simp only [List.map_cons, List.map_nil, List.mem_singleton] at hb
      subst hb
      exact hnew ha
    · intro s
      rw [List.map_append, List.mem_append, List.map_append, List.mem_append,
        hmem s]
      simp
    · intro q hq
      rw [List.mem_append] at hq
      rcases hq with hq | hq
      · have hpred : (item.shopId == q.1) = false := by
          have hne : item.shopId ≠ q.1 := by
            intro he
            exact hnew (he ▸ List.mem_map.mpr ⟨q, hq, rfl⟩)
          simpa using hne
        rw [List.filter_append]
        simp only [List.filter, hpred]
        rw [← hcont q hq, List.append_nil]
      · simp only [List.mem_singleton] at hq
        subst hq
        rw [List.filter_append]
        have hfilnil : processed.filter (fun i => i.shopId == item.shopId) = [] := by
          rw [List.filter_eq_nil_iff]
          intro i hi
          intro hpred
          have : i.shopId = item.shopId := by simpa using hpred
          exact hnewproc (this ▸ List.mem_map.mpr ⟨i, hi, rfl⟩)
        rw [hfilnil]
        simp [List.filter]

lemma foldl_groupStep_inv (cart : List CartItem) :
    ∀ acc processed, GroupInv acc processed →
      GroupInv (cart.foldl groupStep acc) (processed ++ cart) := by
  induction cart with
  | nil => intro acc processed h; simpa using h
  | cons i rest ih =>
    intro acc processed h
    rw [List.foldl_cons]
    have hstep := ih (groupStep acc i) (processed ++ [i]) (groupStep_inv acc processed i h)
    simpa [List.append_assoc] using hstep

lemma groupCartByShop_inv (cart : List CartItem) :
    GroupInv (groupCartByShop cart) cart := by
  have h0 : GroupInv [] ([] : List CartItem) := by
    refine ⟨List.nodup_nil, ?_, ?_⟩ <;> simp
  simpa using foldl_groupStep_inv cart [] [] h0

/-- C5: create-order partitions the cart by shopId: an empty cart yields
zero orders, the number of orders equals the number of distinct shopIds
in the cart, every created order's cart consists exactly of the cart items
bearing some shopId occurring in the cart, and every shopId occurring in
the cart has an order carrying exactly its items. -/
theorem createOrder_splits_by_shop (cart : List CartItem) (totalPrice : Rat) :
    (cart = [] → createOrder cart totalPrice = []) ∧
    (createOrder cart totalPrice).length =
      (cart.map (fun i => i.shopId)).dedup.length ∧
    (∀ o ∈ createOrder cart totalPrice, ∃ s ∈ cart.map (fun i => i.shopId),
      o.cart = cart.filter (fun i => i.shopId == s)) ∧
    (∀ s ∈ cart.map (fun i => i.shopId), ∃ o ∈ createOrder cart totalPrice,
      o.cart = cart.filter (fun i => i.shopId == s)) := by
  obtain ⟨hnd, hmem, hcont⟩ := groupCartByShop_inv cart
  refine ⟨?_, ?_, ?_, ?_⟩
  · intro hnil
    subst hnil
    rfl
  · have h1 : (createOrder cart totalPrice).length =
        ((groupCartByShop cart).map Prod.fst).length := by
      simp [createOrder]
    have h2 : ((groupCartByShop cart).map Prod.fst).toFinset =
        ((cart.map (fun i => i.shopId)).dedup).toFinset := by
      ext s
      simp only [List.mem_toFinset, List.mem_dedup]
      exact hmem s
    rw [h1, ← List.toFinset_card_of_nodup hnd, h2,
      List.toFinset_card_of_nodup (List.nodup_dedup _)]
  · intro o ho
    obtain ⟨p, hp, hpo⟩ := List.mem_map.mp ho
    refine ⟨p.1, (hmem p.1).mp (List.mem_map.mpr ⟨p, hp, rfl⟩), ?_⟩
    rw [← hpo]
    exact hcont p hp
  · intro s hs
    obtain ⟨p, hp, hp1⟩ := List.mem_map.mp ((hmem s).mpr hs)
    have hoin : ({ cart := p.2, totalPrice := totalPrice, status := "Processing", paymentStatus := "Processing", deliveredAt := none } : OrderDoc) ∈ createOrder cart totalPrice :=
      List.mem_map.mpr ⟨p, hp, rfl⟩
    refine ⟨_, hoin, ?_⟩
    show p.2 = cart.filter (fun i => i.shopId == s)
    rw [hcont p hp, hp1]

/-- Witness for C5: an empty cart creates no orders, and the shop s1 of a
two-shop cart gets an order holding exactly its item. -/
theorem createOrder_splits_by_shop_witness :
    createOrder [] (200 : Rat) = [] ∧
    (∃ o ∈ createOrder
        [{ pid := "p1", shopId := "s1", qty := 2, price := 1 },
         { pid := "p2", shopId := "s2", qty := 1, price := 2 }] (200 : Rat),
      o.cart = [{ pid := "p1", shopId := "s1", qty := 2, price := 1 }]) := by
  constructor
  · exact (createOrder_splits_by_shop [] 200).1 rfl
  · obtain ⟨o, ho, hoc⟩ :=
      (createOrder_splits_by_shop
        [{ pid := "p1", shopId := "s1", qty := 2, price := 1 },
         { pid := "p2", shopId := "s2", qty := 1, price := 2 }] 200).2.2.2
        "s1" (by decide)
    refine ⟨o, ho, ?_⟩
    rw [hoc]
    decide

/-- One product review: the reviewing user and the rating they gave. -/
structure Review where
  userId : String
  rating : Rat
deriving DecidableEq, Repr

/-- A product restricted to its review list and aggregate ratings field. -/
structure ReviewedProduct where
  reviews : List Review
  ratings : Rat
deriving DecidableEq, Repr

/-- Modelled from the spec: the create-new-review handler of
controller/product.js (not in the snapshot). Per the spec's
"rating averaging" and the Jest suite: if the requesting user already has
a review on the product, that review is overwritten in place, otherwise
the new review is appended; then the ratings field is recomputed as the
sum of all review ratings divided by the review count. -/
def createNewReview (p : ReviewedProduct) (userId : String) (rating : Rat) :
    ReviewedProduct :=
  let reviews2 :=
    if p.reviews.any (fun r => r.userId == userId) then
      p.reviews.map (fun r =>
        if r.userId == userId then { r with rating := rating } else r)
    else p.reviews ++ [{ userId := userId, rating := rating }]
  { reviews := reviews2,
    ratings := (reviews2.map (fun r => r.rating)).sum / (reviews2.length : Rat) }

/-- C7: after create-new-review the ratings field is the arithmetic mean
of all review ratings on the product; a user who already reviewed gets
their review replaced in place (count unchanged, their rating becomes the
new one), while a fresh reviewer is appended. -/
theorem createNewReview_spec (p : ReviewedProduct) (userId : String)
    (rating : Rat) :
    (createNewReview p userId rating).ratings =
      ((createNewReview p userId rating).reviews.map (fun r => r.rating)).sum /
        ((createNewReview p userId rating).reviews.length : Rat) ∧
    ((∃ r ∈ p.reviews, r.userId = userId) →
      (createNewReview p userId rating).reviews.length = p.reviews.length ∧
      ∀ r ∈ (createNewReview p userId rating).reviews,
        r.userId = userId → r.rating = rating) ∧
    ((∀ r ∈ p.reviews, r.userId ≠ userId) →
      (createNewReview p userId rating).reviews =
        p.reviews ++ [{ userId := userId, rating := rating }]) := by
  refine ⟨rfl, ?_, ?_⟩
  · rintro ⟨r0, hr0, hru⟩
    have hany : p.reviews.any (fun r => r.userId == userId) = true :=
      List.any_eq_true.mpr ⟨r0, hr0, by simp [hru]⟩
    have hrev : (createNewReview p userId rating).reviews =
        p.reviews.map (fun r =>
          if r.userId == userId then { r with rating := rating } else r) := by
      simp only [createNewReview, hany, if_true]
    rw [hrev]
    refine ⟨List.length_map _ _, ?_⟩
    intro r hr hruser
    obtain ⟨r1, hr1, hr1r⟩ := List.mem_map.mp hr
    by_cases hk : (r1.userId == userId) = true
    · rw [if_pos hk] at hr1r
      rw [← hr1r]
    · rw [if_neg hk] at hr1r
      subst hr1r
      exact absurd hruser (by simpa using hk)
  · intro hall
    have hany : p.reviews.any (fun r => r.userId == userId) = false := by
      rw [List.any_eq_false]
      intro r hr
      simpa using hall r hr
    simp only [createNewReview, hany, Bool.false_eq_true, if_false]

/-- Witness for C7: on a product with the single review (u1, 2), a fresh
review by u2 with rating 4 appends and the mean becomes 3, while u1
re-reviewing with rating 5 keeps the review count at one. -/
theorem createNewReview_spec_witness :
    (createNewReview { reviews := [{ userId := "u1", rating := 2 }], ratings := 2 } "u2" 4).reviews = [{ userId := "u1", rating := 2 }] ++ [{ userId := "u2", rating := 4 }] ∧
    (createNewReview { reviews := [{ userId := "u1", rating := 2 }], ratings := 2 } "u2" 4).ratings = 3 ∧
    (createNewReview { reviews := [{ userId := "u1", rating := 2 }], ratings := 2 } "u1" 5).reviews.length = ([{ userId := "u1", rating := 2 }] : List Review).length := by
  refine ⟨?_, ?_, ?_⟩
  · exact (createNewReview_spec { reviews := [{ userId := "u1", rating := 2 }], ratings := 2 } "u2" 4).2.2 (by decide)
  · have h1 := (createNewReview_spec { reviews := [{ userId := "u1", rating := 2 }], ratings := 2 } "u2" 4).1
    rw [h1]
    have h2 := (createNewReview_spec { reviews := [{ userId := "u1", rating := 2 }], ratings := 2 } "u2" 4).2.2 (by decide)
    rw [h2]
    norm_num
  · exact ((createNewReview_spec { reviews := [{ userId := "u1", rating := 2 }], ratings := 2 } "u1" 5).2.1 ⟨{ userId := "u1", rating := 2 }, List.mem_singleton_self _, rfl⟩).1

/-- A coupon code document reduced to its unique name and value. -/
structure Coupoun where
  name : String
  value : Rat
deriving DecidableEq, Repr

/-- Outcome of a create-coupon-code request: the new collection, the HTTP
status and the response message. -/
structure CoupounResult where
  coupons : List Coupoun
  status : Nat
  message : String
deriving DecidableEq, Repr

/-- Modelled from the spec: the create-coupon-code handler of
controller/coupounCode.js (not in the snapshot). Per the spec
("coupon name unique" enforced by an application-level check) and the
Jest suite: if a coupon with the requested name already exists the
request fails with 400 and the message Coupoun code already exists!,
leaving the collection unchanged; otherwise the coupon is appended
and 201 returned. -/
def createCoupounCode (coupons : List Coupoun) (c : Coupoun) : CoupounResult :=
  if coupons.any (fun x => x.name == c.name) then
    { coupons := coupons, status := 400,
      message := "Coupoun code already exists!" }
  else { coupons := coupons ++ [c], status := 201, message := "success" }

/-- C8: when exactly one coupon with the requested name exists, creating
it again fails with 400 and the message Coupoun code already exists!, the
collection is unchanged and still holds exactly one coupon of that name,
and re-delivering the same request gives the identical outcome. -/
theorem createCoupounCode_unique (coupons : List Coupoun) (c : Coupoun)
    (h : (coupons.filter (fun x => x.name == c.name)).length = 1) :
    (createCoupounCode coupons c).status = 400 ∧
    (createCoupounCode coupons c).message = "Coupoun code already exists!" ∧
    (createCoupounCode coupons c).coupons = coupons ∧
    ((createCoupounCode coupons c).coupons.filter
      (fun x => x.name == c.name)).length = 1 ∧
    createCoupounCode (createCoupounCode coupons c).coupons c =
      createCoupounCode coupons c := by
  have hpos : 0 < (coupons.filter (fun x => x.name == c.name)).length := by
    omega
  obtain ⟨x, hx⟩ := List.exists_mem_of_length_pos hpos
  have hx2 := List.mem_filter.mp hx
  have hany : coupons.any (fun x => x.name == c.name) = true :=
    List.any_eq_true.mpr ⟨x, hx2.1, hx2.2⟩
  have hres : createCoupounCode coupons c =
      { coupons := coupons, status := 400,
        message := "Coupoun code already exists!" } := by
    unfold createCoupounCode
    rw [if_pos hany]
  rw [hres]
  exact ⟨rfl, rfl, rfl, h, hres⟩

/-- Witness for C8: with SAVE10 already in the collection, creating it
again returns 400 and the unchanged singleton collection. -/
theorem createCoupounCode_unique_witness :
    (createCoupounCode [{ name := "SAVE10", value := 10 }] { name := "SAVE10", value := 10 }).status = 400 ∧
    (createCoupounCode [{ name := "SAVE10", value := 10 }] { name := "SAVE10", value := 10 }).coupons = [{ name := "SAVE10", value := 10 }] := by
  have h := createCoupounCode_unique [{ name := "SAVE10", value := 10 }] { name := "SAVE10", value := 10 } (by decide)
  exact ⟨h.1, h.2.2.1⟩

/-- Modelled from the spec: the create-withdraw-request handler of
controller/withdraw.js (not in the snapshot). The Jest suite pins the
order of effects: an invalid (non-positive) or excessive amount fails
with 500 and no change; sendMail is awaited before any database write,
so a failed email returns 500 with the balance untouched and no withdraw
created; only then is the withdraw recorded and the seller balance
reduced by the amount (201). The result is the new balance, the withdraw
amounts on record, and the HTTP status. -/
def createWithdrawRequest (balance : Rat) (withdraws : List Rat)
    (amount : Rat) (emailOk : Bool) : Rat × List Rat × Nat :=
  if amount ≤ 0 ∨ balance < amount then (balance, withdraws, 500)
  else if emailOk then (balance - amount, withdraws ++ [amount], 201)
  else (balance, withdraws, 500)

/-- A withdraw request document reduced to its amount and status. -/
structure WithdrawDoc where
  amount : Rat
  status : String
deriving DecidableEq, Repr

/-- Modelled from the spec: the update-withdraw-request handler of
controller/withdraw.js (not in the snapshot). The Jest suite's closing
comment records that the database changes happen before the email is
sent: the withdraw status becomes succeed and the transaction amount is
appended to the seller whether sendMail then succeeds (201) or fails
(500). The result is the updated withdraw, the seller transaction
amounts, and the HTTP status. -/
def updateWithdrawRequest (w : WithdrawDoc) (transections : List Rat)
    (emailOk : Bool) : WithdrawDoc × List Rat × Nat :=
  let w2 : WithdrawDoc := { w with status := "succeed" }
  let t2 := transections ++ [w.amount]
  if emailOk then (w2, t2, 201) else (w2, t2, 500)

/-- C3 counterexample: in create-withdraw-request with balance 1000 and
amount 500, a failing sendMail yields 500 with the balance still 1000 and
no withdraw stored, while the deduction happens only when the email
succeeds: no create-withdraw-request execution ever mutates the balance
before a failing email, so there is no persisted deduction to (not) roll
back in the create flow. -/
theorem createWithdraw_failed_email_no_mutation :
    createWithdrawRequest 1000 [] 500 false = (1000, [], 500) ∧
    createWithdrawRequest 1000 [] 500 true = (500, [500], 201) := by
  constructor <;> norm_num [createWithdrawRequest]

/-- C3 amended: the email-before-mutation order in create-withdraw-request
means a failed sendMail always leaves the balance and withdraw records
unchanged; the genuine uncompensated partial failure is in
update-withdraw-request, where the succeed status and the appended seller
transaction are persisted before sendMail and survive a failed email. -/
theorem withdraw_email_failure_semantics (balance : Rat)
    (withdraws : List Rat) (amount : Rat) (w : WithdrawDoc)
    (transections : List Rat) :
    createWithdrawRequest balance withdraws amount false =
      (balance, withdraws, 500) ∧
    updateWithdrawRequest w transections false =
      ({ w with status := "succeed" }, transections ++ [w.amount], 500) := by
  constructor
  · unfold createWithdrawRequest
    by_cases hg : amount ≤ 0 ∨ balance < amount
    · rw [if_pos hg]
    · rw [if_neg hg]
      rfl
  · rfl
